import Mathlib

/-!
Shallow embedding of the photon-accounting subsystem of `imaging_diffusion`
(`src/photons/mod.rs` and `src/photons/list.rs`).

Machine `f64` values are modelled as exact rationals together with a NaN
marker (rounding of `f64` arithmetic is idealised as exact rational
arithmetic, while the integer casts, NaN behaviour and machine-integer
wrap-around are modelled exactly).  `u32` counters are natural numbers
reduced modulo `2^32` at every increment, matching `AtomicU32::fetch_add`,
and the `f64 -> i32` / `f64 -> u32` casts use Rust's saturating semantics.
The HDF5 file managed by `PhotonOutputter` is modelled as the sequence of
records of its `photons` dataset plus the optional one-shot `atoms` dataset.
-/

namespace ImagingDiffusion

/-- Model of an `f64` value: NaN, or an exact (rational) finite value. -/
inductive F64 where
  | nan : F64
  | val : ℚ → F64
deriving DecidableEq

/-- Model of `nalgebra::Vector3<f64>`. -/
abbrev Vector3 : Type := F64 × F64 × F64

/-- Truncation of a rational toward zero, as Rust's float-to-int casts
truncate (`-⌊-q⌋ = ⌈q⌉` for negative `q`). -/
def ratTrunc (q : ℚ) : ℤ := if 0 ≤ q then ⌊q⌋ else -⌊-q⌋

/-- Rust `f64 as i32`: NaN casts to 0; otherwise truncate toward zero and
saturate to the `i32` range. -/
def F64.toI32 (x : F64) : ℤ :=
  match x with
  | .nan => 0
  | .val q => max (-(2 ^ 31)) (min (2 ^ 31 - 1) (ratTrunc q))

/-- Rust `f64 as u32`: NaN casts to 0; otherwise truncate toward zero and
saturate to `[0, 2^32)`. -/
def F64.toU32 (x : F64) : ℕ :=
  match x with
  | .nan => 0
  | .val q => (min (2 ^ 32 - 1) (max 0 (ratTrunc q))).toNat

/-- Rust `f64::round`: round half away from zero; NaN stays NaN. -/
def F64.round (x : F64) : F64 :=
  match x with
  | .nan => .nan
  | .val q => .val ((if 0 ≤ q then ⌊q + 1 / 2⌋ else -⌊-q + 1 / 2⌋ : ℤ) : ℚ)

/-- Division of an `f64` by a finite value, idealised as exact rational division;
NaN propagates. -/
def F64.div (x : F64) (c : ℚ) : F64 :=
  match x with
  | .nan => .nan
  | .val q => .val (q / c)

/-- Reinterpret an integer result modulo `2^32` as a Rust `i32`
(two's-complement wrap-around, as release-mode `i32` arithmetic and
`usize as i32` casts behave). -/
def wrapI32 (z : ℤ) : ℤ := (z + 2 ^ 31) % 2 ^ 32 - 2 ^ 31

/-- Rust `i32` division by 2 truncates toward zero. -/
def i32half (a : ℤ) : ℤ := if 0 ≤ a then a / 2 else -((-a) / 2)

/-- The per-entity scattered-photon count
(`total.contents.iter().map(|a| a.scattered.round() as u32).sum::<u32>()`,
`src/photons/list.rs` line 92 and `src/photons/mod.rs` line 150):
each channel's `scattered` value is rounded, cast to `u32`, and the casts are
summed with wrapping `u32` addition. -/
def scatterCount (contents : List F64) : ℕ :=
  (contents.map (fun a => (F64.round a).toU32)).foldl (fun s v => (s + v) % 2 ^ 32) 0

/-- Modelled from the spec's words, for refinement comparison with
`scatterCount` (claim C3): "summing contributions from however many internal
emission channels an entity has and rounding to the nearest non-negative
integer" — sum all channel contributions first, then round the sum to the
nearest non-negative integer. -/
def scatterCountSpecSumRound (contents : List ℚ) : ℕ :=
  (max 0 (if 0 ≤ contents.sum then ⌊contents.sum + 1 / 2⌋ else -⌊-contents.sum + 1 / 2⌋)).toNat

/-- The `PhotonHistogram` struct (`src/photons/mod.rs`): cell size, cells per axis, and
the flat vector of `AtomicU32` cells (values in `[0, 2^32)`). -/
structure PhotonHistogram where
  cell_size : ℚ
  cell_number : ℕ
  cells : List ℕ
deriving DecidableEq

/-- Constructor `PhotonHistogram::new(domain_size, cell_number)`: `cell_size` is
`domain_size / cell_number`, and `cell_number * cell_number * cell_number`
cells all start at zero. -/
def PhotonHistogram.new (domain_size : ℚ) (cell_number : ℕ) : PhotonHistogram :=
  { cell_size := domain_size / (cell_number : ℚ)
    cell_number := cell_number
    cells := List.replicate (cell_number * cell_number * cell_number) 0 }

/-- Method `PhotonHistogram::get_index`: per axis,
`(position[axis] / cell_size) as i32 + (cell_number as i32) / 2`; `None` when
any axis index leaves `[0, cell_number as i32)`, otherwise the z-major flat
index `z * cell_number * cell_number + y * cell_number + x`. -/
def PhotonHistogram.get_index (h : PhotonHistogram) (p : Vector3) : Option ℕ :=
  let x := wrapI32 ((p.1.div h.cell_size).toI32 + i32half (wrapI32 (h.cell_number : ℤ)))
  let y := wrapI32 ((p.2.1.div h.cell_size).toI32 + i32half (wrapI32 (h.cell_number : ℤ)))
  let z := wrapI32 ((p.2.2.div h.cell_size).toI32 + i32half (wrapI32 (h.cell_number : ℤ)))
  if x < 0 ∨ wrapI32 (h.cell_number : ℤ) ≤ x
      ∨ y < 0 ∨ wrapI32 (h.cell_number : ℤ) ≤ y
      ∨ z < 0 ∨ wrapI32 (h.cell_number : ℤ) ≤ z then
    none
  else
    some (z.toNat * h.cell_number * h.cell_number + y.toNat * h.cell_number + x.toNat)

/-- Modelled from the spec's words, for refinement comparison with
`get_index` (claim C4): index per axis is
`floor(position[axis] / cell_size) + cell_number / 2` with `floor` rounding
toward negative infinity, in-bounds `[0, cell_number)`, z-major flat index. -/
def PhotonHistogram.get_index_floorSpec (h : PhotonHistogram) (px py pz : ℚ) : Option ℕ :=
  let x := ⌊px / h.cell_size⌋ + (h.cell_number : ℤ) / 2
  let y := ⌊py / h.cell_size⌋ + (h.cell_number : ℤ) / 2
  let z := ⌊pz / h.cell_size⌋ + (h.cell_number : ℤ) / 2
  if x < 0 ∨ (h.cell_number : ℤ) ≤ x
      ∨ y < 0 ∨ (h.cell_number : ℤ) ≤ y
      ∨ z < 0 ∨ (h.cell_number : ℤ) ≤ z then
    none
  else
    some (z.toNat * h.cell_number * h.cell_number + y.toNat * h.cell_number + x.toNat)

/-- One `AtomicU32::fetch_add(1, Ordering::SeqCst)`: wraps on overflow. -/
def cellIncr (v : ℕ) : ℕ := (v + 1) % 2 ^ 32

/-- Method `PhotonHistogram::count`: increment the indexed cell, or do nothing when
`get_index` returns `None`. -/
def PhotonHistogram.count (h : PhotonHistogram) (p : Vector3) : PhotonHistogram :=
  match h.get_index p with
  | none => h
  | some i => { h with cells := h.cells.set i (cellIncr (h.cells.getD i 0)) }

/-- A finite sequence of `count` invocations, one per event position. -/
def runCounts (h : PhotonHistogram) (ps : List Vector3) : PhotonHistogram :=
  ps.foldl PhotonHistogram.count h

/-- Method `PhotonHistogram::write_to_file`: the text written to the (truncated)
file: every cell in storage order, each printed with `{:?}` and followed by a
comma. -/
def PhotonHistogram.write_to_file (h : PhotonHistogram) : String :=
  String.join (h.cells.map (fun v => toString v ++ ","))

/-- The per-axis index expression of `get_index` (the same expression is
written out for each of the three axes in the source). -/
def PhotonHistogram.axisIdx (h : PhotonHistogram) (c : F64) : ℤ :=
  wrapI32 ((c.div h.cell_size).toI32 + i32half (wrapI32 (h.cell_number : ℤ)))

/-- The in-bounds test `get_index` applies to one axis index. -/
def PhotonHistogram.axisInB (h : PhotonHistogram) (c : F64) : Prop :=
  0 ≤ h.axisIdx c ∧ h.axisIdx c < wrapI32 (h.cell_number : ℤ)

instance (h : PhotonHistogram) (c : F64) : Decidable (h.axisInB c) := by
  unfold PhotonHistogram.axisInB; infer_instance

/-- The per-axis rule of the amended claim C4: truncation toward zero of
`position/cell_size` (with the `i32` cast's saturation), plus
`cell_number / 2`. -/
def truncAxis (cs : ℚ) (n : ℕ) (q : ℚ) : ℤ :=
  max (-(2 ^ 31)) (min (2 ^ 31 - 1) (ratTrunc (q / cs))) + (n : ℤ) / 2

/-- Flat index of the amended claim C10: per axis, a NaN component lands at
the centre index `cell_number / 2`, a finite component at its computed axis
index; the axes combine z-major. -/
def centreFlatIdx (h : PhotonHistogram) (p : Vector3) : ℕ :=
  (if p.2.2 = F64.nan then h.cell_number / 2 else (h.axisIdx p.2.2).toNat)
      * h.cell_number * h.cell_number
    + (if p.2.1 = F64.nan then h.cell_number / 2 else (h.axisIdx p.2.1).toNat)
      * h.cell_number
    + (if p.1 = F64.nan then h.cell_number / 2 else (h.axisIdx p.1).toNat)

/-- The `PhotonEmission` struct (`src/photons/list.rs`). -/
structure PhotonEmission where
  position : Vector3
  direction : Vector3
deriving DecidableEq

/-- The `PhotonRecord` type: six `f64` fields, position xyz then direction xyz. -/
structure PhotonRecord where
  f0 : F64
  f1 : F64
  f2 : F64
  f3 : F64
  f4 : F64
  f5 : F64
deriving DecidableEq

/-- Constructor `PhotonRecord::new`. -/
def PhotonRecord.new (p : PhotonEmission) : PhotonRecord :=
  ⟨p.position.1, p.position.2.1, p.position.2.2,
   p.direction.1, p.direction.2.1, p.direction.2.2⟩

/-- The HDF5 fill value of an unwritten record slot: six zeros. -/
def PhotonRecord.zero : PhotonRecord :=
  ⟨.val 0, .val 0, .val 0, .val 0, .val 0, .val 0⟩

/-- The `InitialAtomPositionRecord` type: six `f64` fields, position xyz then
velocity xyz. -/
structure InitialAtomPositionRecord where
  f0 : F64
  f1 : F64
  f2 : F64
  f3 : F64
  f4 : F64
  f5 : F64
deriving DecidableEq

/-- Constructor `InitialAtomPositionRecord::new`. -/
def InitialAtomPositionRecord.new (pos vel : Vector3) : InitialAtomPositionRecord :=
  ⟨pos.1, pos.2.1, pos.2.2, vel.1, vel.2.1, vel.2.2⟩

/-- The `PhotonOutputter` struct (`src/photons/list.rs`): the state of the backing HDF5
file — the resizable `photons` dataset's records, and the one-shot `atoms`
dataset (absent until created). -/
structure PhotonOutputter where
  photons : List PhotonRecord
  atoms : Option (List InitialAtomPositionRecord)
deriving DecidableEq

/-- Constructor `PhotonOutputter::new`: creates (truncating) the file and the `photons`
dataset with `SimpleExtents::new(&[(1, None)])` — an initial extent of ONE
record (holding the zero fill value), unlimited maximum.  No `atoms` dataset
exists yet. -/
def PhotonOutputter.new : PhotonOutputter :=
  { photons := [PhotonRecord.zero], atoms := none }

/-- Method `PhotonOutputter::append_photons`: read the current dataset size, resize
by the batch length and write the batch records into the new tail slice. -/
def PhotonOutputter.append_photons (st : PhotonOutputter)
    (photons : List PhotonEmission) : PhotonOutputter :=
  { st with photons := st.photons ++ photons.map (fun p => PhotonRecord.new p) }

/-- Method `PhotonOutputter::write_initial_atom_positions`: create the one-shot
`atoms` dataset with the given records; creating it when it already exists
fails (the `expect` aborts with this message). -/
def PhotonOutputter.write_initial_atom_positions (st : PhotonOutputter)
    (records : List InitialAtomPositionRecord) : Except String PhotonOutputter :=
  match st.atoms with
  | some _ => .error "Could not create dataset"
  | none => .ok { st with atoms := some records }

/-- System `RegisterInitialAtomsSystem::run`, applied to the batch of records
collected from the newly created atoms this step: it writes the `atoms`
dataset only when the batch is non-empty (`if atoms.len() > 0`). -/
def registerInitialAtoms (st : PhotonOutputter)
    (batch : List InitialAtomPositionRecord) : Except String PhotonOutputter :=
  if batch.length > 0 then st.write_initial_atom_positions batch else .ok st

/-- The per-entity loop body of `RegisterPhotonsSystem::run`
(`src/photons/list.rs` lines 93-101): produce `number` emission events at
`position`, the i-th direction being the i-th unit-sphere sample drawn from
the thread-local RNG, modelled as the sample stream `dirs`. -/
def samplePhotons (position : Vector3) (number : ℕ)
    (dirs : ℕ → ℚ × ℚ × ℚ) : List PhotonEmission :=
  (List.range number).map (fun i =>
    { position := position
      direction := (F64.val (dirs i).1, F64.val (dirs i).2.1, F64.val (dirs i).2.2) })

/-- Squared Euclidean norm of a sampled direction triple. -/
def normSq (d : ℚ × ℚ × ℚ) : ℚ := d.1 ^ 2 + d.2.1 ^ 2 + d.2.2 ^ 2

/-- Squared norm of an emission's direction when all components are finite. -/
def dirNormSq (v : Vector3) : Option ℚ :=
  match v with
  | (.val a, .val b, .val c) => some (a ^ 2 + b ^ 2 + c ^ 2)
  | _ => none

/-! ### Helper lemmas -/

theorem wrapI32_eq_self {z : ℤ} (h1 : -(2 ^ 31) ≤ z) (h2 : z < 2 ^ 31) :
    wrapI32 z = z := by
  unfold wrapI32; omega

theorem wrapI32_le_self {n : ℕ} : wrapI32 (n : ℤ) ≤ (n : ℤ) := by
  unfold wrapI32; omega

theorem wrapI32_lt {z : ℤ} : wrapI32 z < 2 ^ 31 := by
  unfold wrapI32; omega

theorem F64.toI32_range (x : F64) : -(2 ^ 31) ≤ x.toI32 ∧ x.toI32 ≤ 2 ^ 31 - 1 := by
  cases x with
  | nan => exact ⟨by norm_num [F64.toI32], by norm_num [F64.toI32]⟩
  | val q =>
    simp only [F64.toI32]
    exact ⟨le_max_left _ _, max_le (by norm_num) (min_le_left _ _)⟩

theorem i32half_nonneg {a : ℤ} (h : 0 ≤ a) : i32half a = a / 2 := by
  unfold i32half; simp [h]

/-- Characterisation of `get_index` through the shared per-axis expression `axisIdx`. -/
theorem get_index_eq (h : PhotonHistogram) (p : Vector3) :
    h.get_index p =
      if h.axisIdx p.1 < 0 ∨ wrapI32 (h.cell_number : ℤ) ≤ h.axisIdx p.1
          ∨ h.axisIdx p.2.1 < 0 ∨ wrapI32 (h.cell_number : ℤ) ≤ h.axisIdx p.2.1
          ∨ h.axisIdx p.2.2 < 0 ∨ wrapI32 (h.cell_number : ℤ) ≤ h.axisIdx p.2.2 then
        none
      else
        some ((h.axisIdx p.2.2).toNat * h.cell_number * h.cell_number
          + (h.axisIdx p.2.1).toNat * h.cell_number + (h.axisIdx p.1).toNat) := rfl

/-- Characterisation of `get_index` on an explicit component triple, through
`axisIdx`. -/
theorem get_index_tuple (h : PhotonHistogram) (a b c : F64) :
    h.get_index (a, b, c) =
      if h.axisIdx a < 0 ∨ wrapI32 (h.cell_number : ℤ) ≤ h.axisIdx a
          ∨ h.axisIdx b < 0 ∨ wrapI32 (h.cell_number : ℤ) ≤ h.axisIdx b
          ∨ h.axisIdx c < 0 ∨ wrapI32 (h.cell_number : ℤ) ≤ h.axisIdx c then
        none
      else
        some ((h.axisIdx c).toNat * h.cell_number * h.cell_number
          + (h.axisIdx b).toNat * h.cell_number + (h.axisIdx a).toNat) := rfl

/-- On a position whose three axis indices pass the in-bounds test,
`get_index` returns the z-major flat index: the third (z) component's axis
index scales by `cell_number^2`, the second (y) by `cell_number`, and the
first (x) stands alone. -/
theorem getIndex_inB (h : PhotonHistogram) (a b c : F64)
    (hx : h.axisInB a) (hy : h.axisInB b) (hz : h.axisInB c) :
    h.get_index (a, b, c)
      = some ((h.axisIdx c).toNat * h.cell_number * h.cell_number
          + (h.axisIdx b).toNat * h.cell_number + (h.axisIdx a).toNat) := by
  rw [get_index_tuple, if_neg (by
    unfold PhotonHistogram.axisInB at hx hy hz
    omega)]

/-- On a position with some axis index out of bounds, `get_index` is `None`. -/
theorem getIndex_out (h : PhotonHistogram) (p : Vector3)
    (hout : ¬ (h.axisInB p.1 ∧ h.axisInB p.2.1 ∧ h.axisInB p.2.2)) :
    h.get_index p = none := by
  rw [get_index_eq, if_pos]
  unfold PhotonHistogram.axisInB at hout
  omega

theorem count_cell_size (h : PhotonHistogram) (p : Vector3) :
    (h.count p).cell_size = h.cell_size := by
  unfold PhotonHistogram.count
  cases h.get_index p <;> rfl

theorem count_cell_number (h : PhotonHistogram) (p : Vector3) :
    (h.count p).cell_number = h.cell_number := by
  unfold PhotonHistogram.count
  cases h.get_index p <;> rfl

theorem getIndex_count (h : PhotonHistogram) (p q : Vector3) :
    (h.count p).get_index q = h.get_index q := by
  unfold PhotonHistogram.count
  cases h.get_index p <;> rfl

theorem count_of_none {h : PhotonHistogram} {p : Vector3}
    (hp : h.get_index p = none) : h.count p = h := by
  unfold PhotonHistogram.count; rw [hp]

theorem count_of_some {h : PhotonHistogram} {p : Vector3} {i : ℕ}
    (hp : h.get_index p = some i) :
    h.count p = { h with cells := h.cells.set i (cellIncr (h.cells.getD i 0)) } := by
  unfold PhotonHistogram.count; rw [hp]

theorem getD_set_self {l : List ℕ} {i : ℕ} {a : ℕ} (h : i < l.length) :
    (l.set i a).getD i 0 = a := by
  simp [List.getD_eq_getElem?_getD, List.getElem?_set_self h]

theorem getD_set_ne {l : List ℕ} {i j : ℕ} {a : ℕ} (h : i ≠ j) :
    (l.set i a).getD j 0 = l.getD j 0 := by
  simp [List.getD_eq_getElem?_getD, List.getElem?_set_ne h]

theorem count_comm (h : PhotonHistogram) (p q : Vector3) :
    (h.count p).count q = (h.count q).count p := by
  cases hp : h.get_index p with
  | none =>
    simp only [count_of_none hp]
    exact (count_of_none (by rw [getIndex_count, hp])).symm
  | some i =>
    cases hq : h.get_index q with
    | none =>
      simp only [count_of_none hq]
      exact count_of_none (by rw [getIndex_count, hq])
    | some j =>
      have gpq : (h.count p).get_index q = some j := by rw [getIndex_count, hq]
      have gqp : (h.count q).get_index p = some i := by rw [getIndex_count, hp]
      rw [count_of_some gpq, count_of_some gqp, count_of_some hp, count_of_some hq]
      simp only [PhotonHistogram.mk.injEq, and_true, true_and]
      by_cases hij : i = j
      · subst hij
        by_cases hlen : i < h.cells.length
        · simp only [getD_set_self hlen, List.set_set]
        · have hle : h.cells.length ≤ i := by omega
          simp only [List.set_eq_of_length_le hle]
      · rw [getD_set_ne hij, getD_set_ne (Ne.symm hij), List.set_comm _ _ _ hij]

theorem runCounts_cons (h : PhotonHistogram) (p : Vector3) (ps : List Vector3) :
    runCounts h (p :: ps) = runCounts (h.count p) ps := rfl

theorem runCounts_perm {ps qs : List Vector3} (hperm : ps.Perm qs) :
    ∀ h : PhotonHistogram, runCounts h ps = runCounts h qs := by
  induction hperm with
  | nil => intro h; rfl
  | cons x _ ih => intro h; rw [runCounts_cons, runCounts_cons, ih]
  | swap x y l => intro h; rw [runCounts_cons, runCounts_cons, runCounts_cons,
      runCounts_cons, count_comm]
  | trans _ _ ih1 ih2 => intro h; rw [ih1, ih2]

theorem flat_lt {n a b c : ℕ} (ha : a < n) (hb : b < n) (hc : c < n) :
    c * n * n + b * n + a < n * n * n := by
  calc c * n * n + b * n + a
      < c * n * n + b * n + n := by omega
    _ = (c * n + (b + 1)) * n := by ring
    _ ≤ (c * n + n) * n := Nat.mul_le_mul_right n (by omega)
    _ = (c + 1) * n * n := by ring
    _ ≤ n * n * n := Nat.mul_le_mul_right n (Nat.mul_le_mul_right n hc)

theorem getIndex_lt (h : PhotonHistogram) (p : Vector3) (i : ℕ)
    (hp : h.get_index p = some i) :
    i < h.cell_number * h.cell_number * h.cell_number := by
  rw [get_index_eq] at hp
  split at hp
  · exact absurd hp (by simp)
  · rename_i hcond
    push_neg at hcond
    obtain ⟨hx0, hxW, hy0, hyW, hz0, hzW⟩ := hcond
    have hWn : wrapI32 (h.cell_number : ℤ) ≤ (h.cell_number : ℤ) := wrapI32_le_self
    injection hp with hp
    rw [← hp]
    exact flat_lt (by omega) (by omega) (by omega)

theorem runCounts_getD (ps : List Vector3) :
    ∀ h : PhotonHistogram,
      h.cells.length = h.cell_number * h.cell_number * h.cell_number →
      (∀ j, h.cells.getD j 0 < 2 ^ 32) →
      ∀ i, (runCounts h ps).cells.getD i 0
        = (h.cells.getD i 0 + ps.countP (fun p => decide (h.get_index p = some i))) % 2 ^ 32 := by
  induction ps with
  | nil =>
    intro h _ hbnd i
    show h.cells.getD i 0 = _
    rw [List.countP_nil, Nat.add_zero, Nat.mod_eq_of_lt (hbnd i)]
  | cons p ps ih =>
    intro h hlen hbnd i
    rw [runCounts_cons]
    have hlen' : (h.count p).cells.length
        = (h.count p).cell_number * (h.count p).cell_number * (h.count p).cell_number := by
      rw [count_cell_number]
      cases hp : h.get_index p with
      | none => rw [count_of_none hp]; exact hlen
      | some j => rw [count_of_some hp]; simpa using hlen
    have hbnd' : ∀ j, (h.count p).cells.getD j 0 < 2 ^ 32 := by
      intro j
      cases hp : h.get_index p with
      | none => rw [count_of_none hp]; exact hbnd j
      | some k =>
        rw [count_of_some hp]
        by_cases hkj : k = j
        · subst hkj
          by_cases hk : k < h.cells.length
          · rw [getD_set_self hk]; exact Nat.mod_lt _ (by norm_num)
          · rw [List.set_eq_of_length_le (by omega)]; exact hbnd k
        · rw [getD_set_ne hkj]; exact hbnd j
    have hpred : (fun q => decide ((h.count p).get_index q = some i))
        = (fun q => decide (h.get_index q = some i)) := by
      funext q; rw [getIndex_count]
    rw [ih (h.count p) hlen' hbnd' i, hpred]
    cases hp : h.get_index p with
    | none =>
      rw [count_of_none hp]
      simp [List.countP_cons, hp]
    | some k =>
      have hk : k < h.cells.length := by
        rw [hlen]; exact getIndex_lt h p k hp
      rw [count_of_some hp]
      by_cases hki : k = i
      · subst hki
        rw [getD_set_self hk, List.countP_cons]
        norm_num [hp, cellIncr]
        omega
      · rw [getD_set_ne hki, List.countP_cons]
        norm_num [hp, hki]

theorem new_cells_length (d : ℚ) (n : ℕ) :
    (PhotonHistogram.new d n).cells.length
      = (PhotonHistogram.new d n).cell_number * (PhotonHistogram.new d n).cell_number
        * (PhotonHistogram.new d n).cell_number := by
  simp [PhotonHistogram.new]

theorem new_getD (d : ℚ) (n : ℕ) (j : ℕ) :
    (PhotonHistogram.new d n).cells.getD j 0 = 0 := by
  simp only [PhotonHistogram.new, List.getD_eq_getElem?_getD, List.getElem?_replicate]
  split <;> rfl

theorem new_bounded (d : ℚ) (n : ℕ) :
    ∀ j, (PhotonHistogram.new d n).cells.getD j 0 < 2 ^ 32 := by
  intro j; rw [new_getD]; norm_num

/-! ### Claim C1 -/

/-- C1 (amended): folding any finite collection of `count(position)`
invocations over a freshly constructed `PhotonHistogram` is
order-independent — any permutation of the invocation sequence yields the
same final histogram — and the final value of each cell equals the exact
number of in-bounds invocations whose position maps to that cell, reduced
modulo `2^32` (the `AtomicU32` width); in particular it equals that exact
number whenever it is below `2^32`.  No update is lost and no event is
counted twice. -/
theorem histogram_counts_order_independent (d : ℚ) (n : ℕ) (ps qs : List Vector3)
    (hperm : ps.Perm qs) (i : ℕ) :
    runCounts (PhotonHistogram.new d n) ps = runCounts (PhotonHistogram.new d n) qs
    ∧ (runCounts (PhotonHistogram.new d n) ps).cells.getD i 0
        = ps.countP (fun p => decide ((PhotonHistogram.new d n).get_index p = some i)) % 2 ^ 32
    ∧ (ps.countP (fun p => decide ((PhotonHistogram.new d n).get_index p = some i)) < 2 ^ 32 →
        (runCounts (PhotonHistogram.new d n) ps).cells.getD i 0
          = ps.countP (fun p => decide ((PhotonHistogram.new d n).get_index p = some i))) := by
  have hval := runCounts_getD ps (PhotonHistogram.new d n) (new_cells_length d n)
    (new_bounded d n) i
  rw [new_getD, Nat.zero_add] at hval
  exact ⟨runCounts_perm hperm _, hval,
    fun hlt => by rw [hval, Nat.mod_eq_of_lt hlt]⟩

/-- Witness for C1 at a concrete input. -/
theorem histogram_counts_order_independent_witness :
    (([(F64.val 0, F64.val 0, F64.val 0)] : List Vector3)).Perm
      [(F64.val 0, F64.val 0, F64.val 0)]
    ∧ (runCounts (PhotonHistogram.new 2 2)
        [(F64.val 0, F64.val 0, F64.val 0)]).cells.getD 7 0 = 1 := by
  refine ⟨List.Perm.refl _, ?_⟩
  have h := (histogram_counts_order_independent 2 2
    [(F64.val 0, F64.val 0, F64.val 0)] [(F64.val 0, F64.val 0, F64.val 0)]
    (List.Perm.refl _) 7).2.1
  rw [h]
  have hg : (PhotonHistogram.new 2 2).get_index (F64.val 0, F64.val 0, F64.val 0)
      = some 7 := by
    norm_num [PhotonHistogram.new, PhotonHistogram.get_index, F64.div, F64.toI32,
      ratTrunc, wrapI32, i32half]
  simp [List.countP_cons, hg]

/-- Counterexample to C1 as stated: `2^32` in-bounds invocations targeting
one cell leave that cell at value `0`, not at the exact count `2^32` — the
`AtomicU32` counter wraps. -/
theorem histogram_counts_exact_count_fails :
    (runCounts (PhotonHistogram.new 2 2)
        (List.replicate (2 ^ 32) (F64.val 0, F64.val 0, F64.val 0))).cells.getD 7 0 = 0
    ∧ (List.replicate (2 ^ 32) ((F64.val 0, F64.val 0, F64.val 0) : Vector3)).countP
        (fun p => decide ((PhotonHistogram.new 2 2).get_index p = some 7)) = 2 ^ 32
    ∧ (0 : ℕ) ≠ 2 ^ 32 := by
  have hg : (PhotonHistogram.new 2 2).get_index (F64.val 0, F64.val 0, F64.val 0)
      = some 7 := by
    norm_num [PhotonHistogram.new, PhotonHistogram.get_index, F64.div, F64.toI32,
      ratTrunc, wrapI32, i32half]
  have hcount : (List.replicate (2 ^ 32) ((F64.val 0, F64.val 0, F64.val 0) : Vector3)).countP
      (fun p => decide ((PhotonHistogram.new 2 2).get_index p = some 7)) = 2 ^ 32 := by
    rw [List.countP_replicate]
    simp [hg]
  have hval := runCounts_getD (List.replicate (2 ^ 32) (F64.val 0, F64.val 0, F64.val 0))
    (PhotonHistogram.new 2 2) (new_cells_length 2 2) (new_bounded 2 2) 7
  rw [new_getD, Nat.zero_add, hcount] at hval
  refine ⟨?_, hcount, by norm_num⟩
  rw [hval]
  norm_num

/-! ### Claim C5 -/

/-- C5 (amended): a histogram cell is a 32-bit counter that wraps modulo
`2^32` rather than saturating: an in-bounds `count` sets the cell to
`(old + 1) % 2^32`, so the value increments as long as it stays below
`2^32 - 1`, but a `count` on a cell already holding the maximum value
`2^32 - 1` wraps it around to `0` (the value decreases). -/
theorem count_wraps_mod (h : PhotonHistogram) (p : Vector3) (i : ℕ)
    (hi : h.get_index p = some i) (hlen : i < h.cells.length) :
    (h.count p).cells.getD i 0 = (h.cells.getD i 0 + 1) % 2 ^ 32
    ∧ (h.cells.getD i 0 + 1 < 2 ^ 32 → (h.count p).cells.getD i 0 = h.cells.getD i 0 + 1)
    ∧ (h.cells.getD i 0 = 2 ^ 32 - 1 → (h.count p).cells.getD i 0 = 0) := by
  have e : (h.count p).cells.getD i 0 = cellIncr (h.cells.getD i 0) := by
    rw [count_of_some hi]
    exact getD_set_self hlen
  unfold cellIncr at e
  exact ⟨e, fun hlt => by rw [e, Nat.mod_eq_of_lt hlt],
    fun hmax => by rw [e, hmax]; norm_num⟩

/-- Witness for C5 at a concrete input. -/
theorem count_wraps_mod_witness :
    (PhotonHistogram.new 1 1).get_index (F64.val 0, F64.val 0, F64.val 0) = some 0
    ∧ 0 < (PhotonHistogram.new 1 1).cells.length
    ∧ ((PhotonHistogram.new 1 1).count (F64.val 0, F64.val 0, F64.val 0)).cells.getD 0 0
        = (PhotonHistogram.new 1 1).cells.getD 0 0 + 1 := by
  have hg : (PhotonHistogram.new 1 1).get_index (F64.val 0, F64.val 0, F64.val 0)
      = some 0 := by
    norm_num [PhotonHistogram.new, PhotonHistogram.get_index, F64.div, F64.toI32,
      ratTrunc, wrapI32, i32half]
  have hlen : 0 < (PhotonHistogram.new 1 1).cells.length := by
    simp [PhotonHistogram.new]
  refine ⟨hg, hlen, ?_⟩
  exact (count_wraps_mod _ _ 0 hg hlen).2.1 (by rw [new_getD]; norm_num)

/-- Counterexample to C5 as stated: invoking `count` on a cell already
holding the maximum representable value `2^32 - 1` does not leave it at the
maximum — the counter wraps to `0`, a strictly smaller value. -/
theorem count_at_max_wraps_to_zero :
    ((PhotonHistogram.mk 1 1 [2 ^ 32 - 1]).count
        (F64.val 0, F64.val 0, F64.val 0)).cells.getD 0 0 = 0
    ∧ (PhotonHistogram.mk 1 1 [2 ^ 32 - 1]).cells.getD 0 0 = 2 ^ 32 - 1
    ∧ (0 : ℕ) < 2 ^ 32 - 1 := by
  have hg : (PhotonHistogram.mk 1 1 [2 ^ 32 - 1]).get_index
      (F64.val 0, F64.val 0, F64.val 0) = some 0 := by
    norm_num [PhotonHistogram.get_index, F64.div, F64.toI32, ratTrunc, wrapI32, i32half]
  refine ⟨?_, rfl, by norm_num⟩
  rw [count_of_some hg]
  norm_num [cellIncr]

/-! ### Claim C6 -/

/-- C6 (confirmed): for every position whose computed index on some axis
falls outside `[0, cell_number)`, `count` is a silent no-op: `get_index`
returns `None` (no error, no panic — the out-of-bounds cell access is never
reached) and every cell of the histogram is left unchanged. -/
theorem count_out_of_bounds_noop (h : PhotonHistogram) (p : Vector3)
    (hout : ¬ (h.axisInB p.1 ∧ h.axisInB p.2.1 ∧ h.axisInB p.2.2)) :
    h.get_index p = none ∧ h.count p = h := by
  exact ⟨getIndex_out h p hout, count_of_none (getIndex_out h p hout)⟩

/-- Witness for C6 at a concrete input. -/
theorem count_out_of_bounds_noop_witness :
    ¬ ((PhotonHistogram.new 2 2).axisInB (F64.val 100)
        ∧ (PhotonHistogram.new 2 2).axisInB (F64.val 0)
        ∧ (PhotonHistogram.new 2 2).axisInB (F64.val 0))
    ∧ (PhotonHistogram.new 2 2).count (F64.val 100, F64.val 0, F64.val 0)
        = PhotonHistogram.new 2 2 := by
  have ha : (PhotonHistogram.new 2 2).axisIdx (F64.val 100) = 101 := by
    norm_num [PhotonHistogram.axisIdx, PhotonHistogram.new, F64.div, F64.toI32,
      ratTrunc, wrapI32, i32half]
  have hW : wrapI32 (((PhotonHistogram.new 2 2).cell_number : ℕ) : ℤ) = 2 := by
    norm_num [PhotonHistogram.new, wrapI32]
  have hn : ¬ ((PhotonHistogram.new 2 2).axisInB (F64.val 100)
      ∧ (PhotonHistogram.new 2 2).axisInB (F64.val 0)
      ∧ (PhotonHistogram.new 2 2).axisInB (F64.val 0)) := by
    intro hcon
    have hlt := hcon.1.2
    rw [ha, hW] at hlt
    omega
  exact ⟨hn, (count_out_of_bounds_noop (PhotonHistogram.new 2 2)
    (F64.val 100, F64.val 0, F64.val 0) hn).2⟩

/-! ### Claim C4 -/

/-- One axis of the truncation rule: under `cell_number < 2^31`, the code's
axis test agrees with the unwrapped rule `truncAxis`, and on an in-bounds
axis the code's index equals `truncAxis`. -/
theorem axis_trunc (h : PhotonHistogram) (q : ℚ) (hn : (h.cell_number : ℤ) < 2 ^ 31) :
    (h.axisInB (F64.val q) ↔
      (0 ≤ truncAxis h.cell_size h.cell_number q
        ∧ truncAxis h.cell_size h.cell_number q < (h.cell_number : ℤ)))
    ∧ (h.axisInB (F64.val q) →
        h.axisIdx (F64.val q) = truncAxis h.cell_size h.cell_number q) := by
  have hn0 : (0 : ℤ) ≤ (h.cell_number : ℤ) := Int.natCast_nonneg _
  have hWn : wrapI32 (h.cell_number : ℤ) = (h.cell_number : ℤ) :=
    wrapI32_eq_self (by omega) hn
  have hhalf : i32half (wrapI32 (h.cell_number : ℤ)) = (h.cell_number : ℤ) / 2 := by
    rw [hWn]; exact i32half_nonneg hn0
  have har := F64.toI32_range ((F64.val q).div h.cell_size)
  have haxis : h.axisIdx (F64.val q)
      = wrapI32 (((F64.val q).div h.cell_size).toI32 + (h.cell_number : ℤ) / 2) := by
    unfold PhotonHistogram.axisIdx; rw [hhalf]
  have htr : truncAxis h.cell_size h.cell_number q
      = ((F64.val q).div h.cell_size).toI32 + (h.cell_number : ℤ) / 2 := rfl
  obtain ⟨h1, h2⟩ := har
  constructor
  · unfold PhotonHistogram.axisInB
    rw [haxis, hWn, htr]
    unfold wrapI32
    omega
  · intro hin
    unfold PhotonHistogram.axisInB at hin
    rw [haxis, hWn] at hin
    rw [haxis, htr]
    unfold wrapI32 at hin ⊢
    omega

/-- C4 (amended): for every finite position, `count`/`get_index` maps the
position to its cell by computing, on each axis independently, the index
`trunc(position[axis] / cell_size) + cell_number / 2`, where `trunc` rounds
toward zero (the Rust `as i32` cast, saturating at the `i32` range) — not
`floor`; the three axes use the identical rule, so a position exactly on a
grid boundary, and any other coordinate value, is classified in- or
out-of-bounds identically on all three axes. -/
theorem getIndex_trunc_rule (h : PhotonHistogram) (px py pz : ℚ)
    (hn : (h.cell_number : ℤ) < 2 ^ 31) :
    h.get_index (F64.val px, F64.val py, F64.val pz)
      = (if 0 ≤ truncAxis h.cell_size h.cell_number px
            ∧ truncAxis h.cell_size h.cell_number px < (h.cell_number : ℤ)
            ∧ 0 ≤ truncAxis h.cell_size h.cell_number py
            ∧ truncAxis h.cell_size h.cell_number py < (h.cell_number : ℤ)
            ∧ 0 ≤ truncAxis h.cell_size h.cell_number pz
            ∧ truncAxis h.cell_size h.cell_number pz < (h.cell_number : ℤ) then
          some ((truncAxis h.cell_size h.cell_number pz).toNat * h.cell_number * h.cell_number
            + (truncAxis h.cell_size h.cell_number py).toNat * h.cell_number
            + (truncAxis h.cell_size h.cell_number px).toNat)
        else none)
    ∧ ((h.get_index (F64.val px, F64.val py, F64.val pz)).isSome
        ↔ (h.get_index (F64.val py, F64.val px, F64.val pz)).isSome)
    ∧ ((h.get_index (F64.val px, F64.val py, F64.val pz)).isSome
        ↔ (h.get_index (F64.val pz, F64.val py, F64.val px)).isSome) := by
  obtain ⟨exiff, exeq⟩ := axis_trunc h px hn
  obtain ⟨eyiff, eyeq⟩ := axis_trunc h py hn
  obtain ⟨eziff, ezeq⟩ := axis_trunc h pz hn
  have hmain : h.get_index (F64.val px, F64.val py, F64.val pz)
      = (if 0 ≤ truncAxis h.cell_size h.cell_number px
            ∧ truncAxis h.cell_size h.cell_number px < (h.cell_number : ℤ)
            ∧ 0 ≤ truncAxis h.cell_size h.cell_number py
            ∧ truncAxis h.cell_size h.cell_number py < (h.cell_number : ℤ)
            ∧ 0 ≤ truncAxis h.cell_size h.cell_number pz
            ∧ truncAxis h.cell_size h.cell_number pz < (h.cell_number : ℤ) then
          some ((truncAxis h.cell_size h.cell_number pz).toNat * h.cell_number * h.cell_number
            + (truncAxis h.cell_size h.cell_number py).toNat * h.cell_number
            + (truncAxis h.cell_size h.cell_number px).toNat)
        else none) := by
    rw [get_index_tuple]
    by_cases hall : 0 ≤ truncAxis h.cell_size h.cell_number px
        ∧ truncAxis h.cell_size h.cell_number px < (h.cell_number : ℤ)
        ∧ 0 ≤ truncAxis h.cell_size h.cell_number py
        ∧ truncAxis h.cell_size h.cell_number py < (h.cell_number : ℤ)
        ∧ 0 ≤ truncAxis h.cell_size h.cell_number pz
        ∧ truncAxis h.cell_size h.cell_number pz < (h.cell_number : ℤ)
    · have hx : h.axisInB (F64.val px) := exiff.mpr ⟨hall.1, hall.2.1⟩
      have hy : h.axisInB (F64.val py) := eyiff.mpr ⟨hall.2.2.1, hall.2.2.2.1⟩
      have hz : h.axisInB (F64.val pz) := eziff.mpr ⟨hall.2.2.2.2.1, hall.2.2.2.2.2⟩
      rw [if_pos hall, if_neg (by
        unfold PhotonHistogram.axisInB at hx hy hz
        omega)]
      rw [exeq hx, eyeq hy, ezeq hz]
    · rw [if_neg hall, if_pos (by
        unfold PhotonHistogram.axisInB at exiff eyiff eziff
        omega)]
  refine ⟨hmain, ?_, ?_⟩
  · rw [get_index_tuple, get_index_tuple]
    unfold PhotonHistogram.axisInB at exiff eyiff eziff
    by_cases hc : h.axisIdx (F64.val px) < 0
        ∨ wrapI32 (h.cell_number : ℤ) ≤ h.axisIdx (F64.val px)
        ∨ h.axisIdx (F64.val py) < 0
        ∨ wrapI32 (h.cell_number : ℤ) ≤ h.axisIdx (F64.val py)
        ∨ h.axisIdx (F64.val pz) < 0
        ∨ wrapI32 (h.cell_number : ℤ) ≤ h.axisIdx (F64.val pz)
    · rw [if_pos hc, if_pos (by omega)]
    · rw [if_neg hc, if_neg (by omega)]
      simp
  · rw [get_index_tuple, get_index_tuple]
    unfold PhotonHistogram.axisInB at exiff eyiff eziff
    by_cases hc : h.axisIdx (F64.val px) < 0
        ∨ wrapI32 (h.cell_number : ℤ) ≤ h.axisIdx (F64.val px)
        ∨ h.axisIdx (F64.val py) < 0
        ∨ wrapI32 (h.cell_number : ℤ) ≤ h.axisIdx (F64.val py)
        ∨ h.axisIdx (F64.val pz) < 0
        ∨ wrapI32 (h.cell_number : ℤ) ≤ h.axisIdx (F64.val pz)
    · rw [if_pos hc, if_pos (by omega)]
    · rw [if_neg hc, if_neg (by omega)]
      simp

/-- Witness for C4 at a concrete input. -/
theorem getIndex_trunc_rule_witness :
    (((PhotonHistogram.new 4 4).cell_number : ℤ) < 2 ^ 31)
    ∧ (((PhotonHistogram.new 4 4).get_index
          (F64.val (-(1 / 2)), F64.val 0, F64.val 0)).isSome
        ↔ ((PhotonHistogram.new 4 4).get_index
          (F64.val 0, F64.val (-(1 / 2)), F64.val 0)).isSome) := by
  refine ⟨by norm_num [PhotonHistogram.new], ?_⟩
  exact (getIndex_trunc_rule (PhotonHistogram.new 4 4) (-(1 / 2)) 0 0
    (by norm_num [PhotonHistogram.new])).2.1

/-- Counterexample to C4 as stated: at position `(-1/2, 0, 0)` on a
`domain_size = 4`, `cell_number = 4` histogram (`cell_size = 1`), the code's
truncation-toward-zero indexing yields cell 42 while the spec's
floor-toward-negative-infinity rule yields cell 41. -/
theorem getIndex_floor_rule_fails :
    (PhotonHistogram.new 4 4).get_index (F64.val (-(1 / 2)), F64.val 0, F64.val 0)
      = some 42
    ∧ (PhotonHistogram.new 4 4).get_index_floorSpec (-(1 / 2)) 0 0 = some 41
    ∧ (41 : ℕ) ≠ 42 := by
  refine ⟨?_, ?_, by norm_num⟩
  · norm_num [PhotonHistogram.new, PhotonHistogram.get_index, F64.div, F64.toI32,
      ratTrunc, wrapI32, i32half]
    decide
  · norm_num [PhotonHistogram.new, PhotonHistogram.get_index_floorSpec]
    decide

/-! ### Claim C9 -/

/-- C9 (confirmed): the flush writes exactly `cell_number^3` counter values
as a flat comma-separated sequence in storage order, and storage order is
z-major: for every in-bounds position, the cell with axis indices
`(x, y, z)` (x from the first coordinate, y from the second, z from the
third) sits at flat position `z * cell_number^2 + y * cell_number + x` — the
z index carries the `cell_number^2` factor and the x index stands alone.
Concretely, with `cell_number = 2`: counting cell `(0, 0, 0)` three times
and cell `(1, 1, 1)` once yields the cell vector `[3, 0, 0, 0, 0, 0, 0, 1]`
— exactly two nonzero values, `3` first and `1` last — and the flushed text
`"3,0,0,0,0,0,0,1,"`; and the axis-asymmetric cells `(1, 0, 0)` (flat 1,
counted once) and `(0, 0, 1)` (flat 4, counted twice) yield
`[0, 1, 0, 0, 2, 0, 0, 0]` and the text `"0,1,0,0,2,0,0,0,"`, which an
x-major layout would not produce. -/
theorem flush_zmajor_order :
    (∀ (h : PhotonHistogram) (a b c : F64),
      h.axisInB a → h.axisInB b → h.axisInB c →
      h.get_index (a, b, c)
        = some ((h.axisIdx c).toNat * h.cell_number * h.cell_number
            + (h.axisIdx b).toNat * h.cell_number + (h.axisIdx a).toNat))
    ∧ (PhotonHistogram.new 2 2).cells.length = 2 * 2 * 2
    ∧ (PhotonHistogram.new 2 2).axisIdx (F64.val (-1)) = 0
    ∧ (PhotonHistogram.new 2 2).axisIdx (F64.val 0) = 1
    ∧ (PhotonHistogram.new 2 2).get_index (F64.val (-1), F64.val (-1), F64.val (-1))
        = some (0 * 2 * 2 + 0 * 2 + 0)
    ∧ (PhotonHistogram.new 2 2).get_index (F64.val 0, F64.val 0, F64.val 0)
        = some (1 * 2 * 2 + 1 * 2 + 1)
    ∧ (PhotonHistogram.new 2 2).get_index (F64.val 0, F64.val (-1), F64.val (-1))
        = some (0 * 2 * 2 + 0 * 2 + 1)
    ∧ (PhotonHistogram.new 2 2).get_index (F64.val (-1), F64.val (-1), F64.val 0)
        = some (1 * 2 * 2 + 0 * 2 + 0)
    ∧ (runCounts (PhotonHistogram.new 2 2)
        [(F64.val (-1), F64.val (-1), F64.val (-1)),
         (F64.val (-1), F64.val (-1), F64.val (-1)),
         (F64.val (-1), F64.val (-1), F64.val (-1)),
         (F64.val 0, F64.val 0, F64.val 0)]).cells = [3, 0, 0, 0, 0, 0, 0, 1]
    ∧ (runCounts (PhotonHistogram.new 2 2)
        [(F64.val (-1), F64.val (-1), F64.val (-1)),
         (F64.val (-1), F64.val (-1), F64.val (-1)),
         (F64.val (-1), F64.val (-1), F64.val (-1)),
         (F64.val 0, F64.val 0, F64.val 0)]).write_to_file = "3,0,0,0,0,0,0,1,"
    ∧ (runCounts (PhotonHistogram.new 2 2)
        [(F64.val 0, F64.val (-1), F64.val (-1)),
         (F64.val (-1), F64.val (-1), F64.val 0),
         (F64.val (-1), F64.val (-1), F64.val 0)]).cells = [0, 1, 0, 0, 2, 0, 0, 0]
    ∧ (runCounts (PhotonHistogram.new 2 2)
        [(F64.val 0, F64.val (-1), F64.val (-1)),
         (F64.val (-1), F64.val (-1), F64.val 0),
         (F64.val (-1), F64.val (-1), F64.val 0)]).write_to_file
        = "0,1,0,0,2,0,0,0," := by
  have hgA : (PhotonHistogram.new 2 2).get_index
      (F64.val (-1), F64.val (-1), F64.val (-1)) = some 0 := by
    norm_num [PhotonHistogram.new, PhotonHistogram.get_index, F64.div, F64.toI32,
      ratTrunc, wrapI32, i32half]
  have hgB : (PhotonHistogram.new 2 2).get_index
      (F64.val 0, F64.val 0, F64.val 0) = some 7 := by
    norm_num [PhotonHistogram.new, PhotonHistogram.get_index, F64.div, F64.toI32,
      ratTrunc, wrapI32, i32half]
  have hg1 : (PhotonHistogram.new 2 2).get_index
      (F64.val 0, F64.val (-1), F64.val (-1)) = some 1 := by
    norm_num [PhotonHistogram.new, PhotonHistogram.get_index, F64.div, F64.toI32,
      ratTrunc, wrapI32, i32half]
  have hg2 : (PhotonHistogram.new 2 2).get_index
      (F64.val (-1), F64.val (-1), F64.val 0) = some 4 := by
    norm_num [PhotonHistogram.new, PhotonHistogram.get_index, F64.div, F64.toI32,
      ratTrunc, wrapI32, i32half]
  have haxm : (PhotonHistogram.new 2 2).axisIdx (F64.val (-1)) = 0 := by
    norm_num [PhotonHistogram.axisIdx, PhotonHistogram.new, F64.div, F64.toI32,
      ratTrunc, wrapI32, i32half]
  have hax0 : (PhotonHistogram.new 2 2).axisIdx (F64.val 0) = 1 := by
    norm_num [PhotonHistogram.axisIdx, PhotonHistogram.new, F64.div, F64.toI32,
      ratTrunc, wrapI32, i32half]
  have g1 : ((PhotonHistogram.new 2 2).count
      (F64.val (-1), F64.val (-1), F64.val (-1))).get_index
      (F64.val (-1), F64.val (-1), F64.val (-1)) = some 0 := by
    rw [getIndex_count]; exact hgA
  have g2 : (((PhotonHistogram.new 2 2).count
      (F64.val (-1), F64.val (-1), F64.val (-1))).count
      (F64.val (-1), F64.val (-1), F64.val (-1))).get_index
      (F64.val (-1), F64.val (-1), F64.val (-1)) = some 0 := by
    rw [getIndex_count, getIndex_count]; exact hgA
  have g3 : ((((PhotonHistogram.new 2 2).count
      (F64.val (-1), F64.val (-1), F64.val (-1))).count
      (F64.val (-1), F64.val (-1), F64.val (-1))).count
      (F64.val (-1), F64.val (-1), F64.val (-1))).get_index
      (F64.val 0, F64.val 0, F64.val 0) = some 7 := by
    rw [getIndex_count, getIndex_count, getIndex_count]; exact hgB
  have c1 : ((PhotonHistogram.new 2 2).count
      (F64.val (-1), F64.val (-1), F64.val (-1))).cells = [1, 0, 0, 0, 0, 0, 0, 0] := by
    rw [count_of_some hgA]; decide
  have c2 : (((PhotonHistogram.new 2 2).count
      (F64.val (-1), F64.val (-1), F64.val (-1))).count
      (F64.val (-1), F64.val (-1), F64.val (-1))).cells = [2, 0, 0, 0, 0, 0, 0, 0] := by
    rw [count_of_some g1, c1]; decide
  have c3 : ((((PhotonHistogram.new 2 2).count
      (F64.val (-1), F64.val (-1), F64.val (-1))).count
      (F64.val (-1), F64.val (-1), F64.val (-1))).count
      (F64.val (-1), F64.val (-1), F64.val (-1))).cells = [3, 0, 0, 0, 0, 0, 0, 0] := by
    rw [count_of_some g2, c2]; decide
  have c4 : (runCounts (PhotonHistogram.new 2 2)
      [(F64.val (-1), F64.val (-1), F64.val (-1)),
       (F64.val (-1), F64.val (-1), F64.val (-1)),
       (F64.val (-1), F64.val (-1), F64.val (-1)),
       (F64.val 0, F64.val 0, F64.val 0)]).cells = [3, 0, 0, 0, 0, 0, 0, 1] := by
    show ((((((PhotonHistogram.new 2 2).count _).count _).count _).count
      (F64.val 0, F64.val 0, F64.val 0))).cells = _
    rw [count_of_some g3, c3]; decide
  have g1b : ((PhotonHistogram.new 2 2).count
      (F64.val 0, F64.val (-1), F64.val (-1))).get_index
      (F64.val (-1), F64.val (-1), F64.val 0) = some 4 := by
    rw [getIndex_count]; exact hg2
  have g2b : (((PhotonHistogram.new 2 2).count
      (F64.val 0, F64.val (-1), F64.val (-1))).count
      (F64.val (-1), F64.val (-1), F64.val 0)).get_index
      (F64.val (-1), F64.val (-1), F64.val 0) = some 4 := by
    rw [getIndex_count, getIndex_count]; exact hg2
  have c1b : ((PhotonHistogram.new 2 2).count
      (F64.val 0, F64.val (-1), F64.val (-1))).cells = [0, 1, 0, 0, 0, 0, 0, 0] := by
    rw [count_of_some hg1]; decide
  have c2b : (((PhotonHistogram.new 2 2).count
      (F64.val 0, F64.val (-1), F64.val (-1))).count
      (F64.val (-1), F64.val (-1), F64.val 0)).cells = [0, 1, 0, 0, 1, 0, 0, 0] := by
    rw [count_of_some g1b, c1b]; decide
  have c3b : (runCounts (PhotonHistogram.new 2 2)
      [(F64.val 0, F64.val (-1), F64.val (-1)),
       (F64.val (-1), F64.val (-1), F64.val 0),
       (F64.val (-1), F64.val (-1), F64.val 0)]).cells = [0, 1, 0, 0, 2, 0, 0, 0] := by
    show (((((PhotonHistogram.new 2 2).count _).count _).count
      (F64.val (-1), F64.val (-1), F64.val 0))).cells = _
    rw [count_of_some g2b, c2b]; decide
  refine ⟨getIndex_inB, by decide, haxm, hax0, by rw [hgA], by rw [hgB],
    by rw [hg1], by rw [hg2], c4, ?_, c3b, ?_⟩
  · unfold PhotonHistogram.write_to_file
    rw [c4]
    rfl
  · unfold PhotonHistogram.write_to_file
    rw [c3b]
    rfl

/-- Witness for C9's general z-major association at a concrete off-diagonal
input: the cell with axis indices `(1, 0, 0)` sits at flat position 1. -/
theorem flush_zmajor_order_witness :
    ((PhotonHistogram.new 2 2).axisInB (F64.val 0)
      ∧ (PhotonHistogram.new 2 2).axisInB (F64.val (-1)))
    ∧ (PhotonHistogram.new 2 2).get_index (F64.val 0, F64.val (-1), F64.val (-1))
        = some 1 := by
  have hax0 : (PhotonHistogram.new 2 2).axisIdx (F64.val 0) = 1 := by
    norm_num [PhotonHistogram.axisIdx, PhotonHistogram.new, F64.div, F64.toI32,
      ratTrunc, wrapI32, i32half]
  have haxm : (PhotonHistogram.new 2 2).axisIdx (F64.val (-1)) = 0 := by
    norm_num [PhotonHistogram.axisIdx, PhotonHistogram.new, F64.div, F64.toI32,
      ratTrunc, wrapI32, i32half]
  have hW : wrapI32 (((PhotonHistogram.new 2 2).cell_number : ℕ) : ℤ) = 2 := by
    norm_num [PhotonHistogram.new, wrapI32]
  have hin0 : (PhotonHistogram.new 2 2).axisInB (F64.val 0) := by
    unfold PhotonHistogram.axisInB
    rw [hax0, hW]
    omega
  have hinm : (PhotonHistogram.new 2 2).axisInB (F64.val (-1)) := by
    unfold PhotonHistogram.axisInB
    rw [haxm, hW]
    omega
  refine ⟨⟨hin0, hinm⟩, ?_⟩
  have h := flush_zmajor_order.1 (PhotonHistogram.new 2 2)
    (F64.val 0) (F64.val (-1)) (F64.val (-1)) hin0 hinm hinm
  rw [h, hax0, haxm]
  norm_num [PhotonHistogram.new]

/-! ### Claim C10 -/

/-- C10 (amended): for every position having a NaN component on some axis
(any axis, any number of NaN axes), `count` never panics: the NaN axis
converts to raw index 0 (the Rust `NaN as i32` cast), giving cell index
`cell_number / 2` on that axis — the centre of the grid, in bounds whenever
`cell_number ≥ 1` — so when every non-NaN axis index is also in bounds the
event is silently counted into the cell whose NaN axes sit at the centre
(`centreFlatIdx`); when some non-NaN axis is out of bounds the event is
instead dropped as out-of-domain, leaving the histogram unchanged. -/
theorem count_nan_centre (h : PhotonHistogram) (p : Vector3)
    (hn : (h.cell_number : ℤ) < 2 ^ 31) (h0 : 0 < h.cell_number)
    (hnan : p.1 = F64.nan ∨ p.2.1 = F64.nan ∨ p.2.2 = F64.nan) :
    (h.axisIdx F64.nan).toNat = h.cell_number / 2
    ∧ h.axisInB F64.nan
    ∧ ((h.axisInB p.1 ∧ h.axisInB p.2.1 ∧ h.axisInB p.2.2) →
        h.get_index p = some (centreFlatIdx h p)
        ∧ h.count p = { h with cells := (h.cells.set (centreFlatIdx h p)
            (cellIncr (h.cells.getD (centreFlatIdx h p) 0))) })
    ∧ (¬ (h.axisInB p.1 ∧ h.axisInB p.2.1 ∧ h.axisInB p.2.2) →
        h.get_index p = none ∧ h.count p = h) := by
  have hn0 : (0 : ℤ) ≤ (h.cell_number : ℤ) := Int.natCast_nonneg _
  have hWn : wrapI32 (h.cell_number : ℤ) = (h.cell_number : ℤ) :=
    wrapI32_eq_self (by omega) hn
  have hnanIdx : h.axisIdx F64.nan = (h.cell_number : ℤ) / 2 := by
    unfold PhotonHistogram.axisIdx F64.div F64.toI32
    rw [hWn, i32half_nonneg hn0, Int.zero_add]
    exact wrapI32_eq_self (by omega) (by omega)
  have htoNat : (h.axisIdx F64.nan).toNat = h.cell_number / 2 := by
    rw [hnanIdx]; omega
  have hnanInB : h.axisInB F64.nan := by
    unfold PhotonHistogram.axisInB
    rw [hnanIdx, hWn]
    omega
  have haxisEq : ∀ a : F64,
      (if a = F64.nan then h.cell_number / 2 else (h.axisIdx a).toNat)
        = (h.axisIdx a).toNat := by
    intro a
    by_cases ha : a = F64.nan
    · rw [if_pos ha, ha, htoNat]
    · rw [if_neg ha]
  refine ⟨htoNat, hnanInB, ?_, ?_⟩
  · intro hin
    obtain ⟨hx, hy, hz⟩ := hin
    have hflat : centreFlatIdx h p
        = (h.axisIdx p.2.2).toNat * h.cell_number * h.cell_number
          + (h.axisIdx p.2.1).toNat * h.cell_number + (h.axisIdx p.1).toNat := by
      unfold centreFlatIdx
      rw [haxisEq, haxisEq, haxisEq]
    have hsome : h.get_index p = some (centreFlatIdx h p) := by
      rw [hflat]
      exact getIndex_inB h p.1 p.2.1 p.2.2 hx hy hz
    exact ⟨hsome, count_of_some hsome⟩
  · intro hout
    exact ⟨getIndex_out h p hout, count_of_none (getIndex_out h p hout)⟩

/-- Witness for C10 at a concrete input with the NaN on the y axis. -/
theorem count_nan_centre_witness :
    ((((PhotonHistogram.new 8 4).cell_number : ℤ) < 2 ^ 31
        ∧ 0 < (PhotonHistogram.new 8 4).cell_number
        ∧ (F64.val 0 = F64.nan ∨ F64.nan = F64.nan ∨ F64.val 0 = F64.nan))
      ∧ (PhotonHistogram.new 8 4).axisInB (F64.val 0))
    ∧ (PhotonHistogram.new 8 4).get_index (F64.val 0, F64.nan, F64.val 0)
        = some 42 := by
  have hn : (((PhotonHistogram.new 8 4).cell_number : ℕ) : ℤ) < 2 ^ 31 := by
    norm_num [PhotonHistogram.new]
  have h0 : 0 < (PhotonHistogram.new 8 4).cell_number := by
    norm_num [PhotonHistogram.new]
  have hnan : (F64.val 0 = F64.nan ∨ F64.nan = F64.nan ∨ F64.val 0 = F64.nan) :=
    Or.inr (Or.inl rfl)
  have haxis : (PhotonHistogram.new 8 4).axisIdx (F64.val 0) = 2 := by
    norm_num [PhotonHistogram.axisIdx, PhotonHistogram.new, F64.div, F64.toI32,
      ratTrunc, wrapI32, i32half]
  have hW : wrapI32 (((PhotonHistogram.new 8 4).cell_number : ℕ) : ℤ) = 4 := by
    norm_num [PhotonHistogram.new, wrapI32]
  have hin0 : (PhotonHistogram.new 8 4).axisInB (F64.val 0) := by
    unfold PhotonHistogram.axisInB
    rw [haxis, hW]
    omega
  have t := count_nan_centre (PhotonHistogram.new 8 4)
    (F64.val 0, F64.nan, F64.val 0) hn h0 hnan
  have hsome := (t.2.2.1 ⟨hin0, t.2.1, hin0⟩).1
  refine ⟨⟨⟨hn, h0, hnan⟩, hin0⟩, ?_⟩
  rw [hsome]
  have hc : centreFlatIdx (PhotonHistogram.new 8 4)
      (F64.val 0, F64.nan, F64.val 0) = 42 := by
    unfold centreFlatIdx
    rw [haxis]
    norm_num [PhotonHistogram.new]
    decide
  rw [hc]

/-- Counterexample to C10 as stated: a position with a NaN x-component and
an out-of-domain finite y-component IS dropped as out-of-domain —
`get_index` returns `None` and `count` leaves the histogram unchanged, so a
NaN-carrying event is not always counted. -/
theorem count_nan_dropped :
    (PhotonHistogram.new 8 4).get_index (F64.nan, F64.val 100, F64.val 0) = none
    ∧ (PhotonHistogram.new 8 4).count (F64.nan, F64.val 100, F64.val 0)
        = PhotonHistogram.new 8 4 := by
  have hg : (PhotonHistogram.new 8 4).get_index (F64.nan, F64.val 100, F64.val 0)
      = none := by
    norm_num [PhotonHistogram.new, PhotonHistogram.get_index, F64.div, F64.toI32,
      ratTrunc, wrapI32, i32half]
  exact ⟨hg, count_of_none hg⟩

/-! ### Claim C3 -/

theorem ratTrunc_intCast (z : ℤ) : ratTrunc (z : ℚ) = z := by
  unfold ratTrunc
  split
  · exact Int.floor_intCast z
  · rw [← Int.cast_neg, Int.floor_intCast]
    omega

theorem foldl_mod (l : List ℕ) :
    ∀ s, s < 2 ^ 32 →
      l.foldl (fun s v => (s + v) % 2 ^ 32) s = (s + l.sum) % 2 ^ 32 := by
  induction l with
  | nil => intro s hs; simp [List.foldl_nil]; omega
  | cons v l ih =>
    intro s hs
    rw [List.foldl_cons, ih ((s + v) % 2 ^ 32) (Nat.mod_lt _ (by norm_num)),
      List.sum_cons]
    omega

/-- C3 (amended): the per-step scatter count is the sum, modulo `2^32`
(wrapping `u32` addition), of each emission channel's contribution rounded
individually to the nearest integer and clamped to the `u32` range; a
channel whose contribution is negative or NaN contributes zero events, the
result is a natural number (never negative), and the computation is total
(never panics in the model). -/
theorem scatterCount_channelwise (contents : List F64) :
    scatterCount contents = (contents.map (fun a => (F64.round a).toU32)).sum % 2 ^ 32
    ∧ (∀ q : ℚ, q < 0 → (F64.round (F64.val q)).toU32 = 0)
    ∧ (F64.round F64.nan).toU32 = 0 := by
  refine ⟨?_, ?_, rfl⟩
  · unfold scatterCount
    rw [foldl_mod _ 0 (by norm_num), Nat.zero_add]
  · intro q hq
    have hq' : ¬ (0 ≤ q) := not_le.mpr hq
    simp only [F64.round, if_neg hq', F64.toU32]
    rw [ratTrunc_intCast]
    have h1 : 0 ≤ ⌊-q + 1 / 2⌋ := Int.floor_nonneg.mpr (by linarith)
    omega

/-- Witness for C3 at a concrete input. -/
theorem scatterCount_channelwise_witness :
    ((-3 : ℚ) < 0)
    ∧ (F64.round (F64.val (-3))).toU32 = 0
    ∧ scatterCount [F64.val (-3)]
        = ([F64.val (-3)].map (fun a => (F64.round a).toU32)).sum % 2 ^ 32 := by
  exact ⟨by norm_num, (scatterCount_channelwise []).2.1 (-3) (by norm_num),
    (scatterCount_channelwise [F64.val (-3)]).1⟩

/-- Counterexample to C3 as stated: two channels contributing `0.4` each
give a code scatter count of `0` (each channel rounds to `0` before
summing), while rounding the summed contribution `0.8` to the nearest
non-negative integer gives `1`. -/
theorem scatterCount_not_sum_round :
    scatterCount [F64.val (2 / 5), F64.val (2 / 5)] = 0
    ∧ scatterCountSpecSumRound [2 / 5, 2 / 5] = 1
    ∧ (0 : ℕ) ≠ 1 := by
  refine ⟨?_, ?_, by norm_num⟩
  · have hr : (F64.round (F64.val (2 / 5))).toU32 = 0 := by
      norm_num [F64.round, F64.toU32, ratTrunc]
    unfold scatterCount
    rw [List.map_cons, List.map_cons, List.map_nil, hr]
    rfl
  · norm_num [scatterCountSpecSumRound]

/-! ### Claim C2 -/

/-- C2 (amended): construction creates the events dataset with an initial
extent of ONE record (the zero fill value), not zero; appending batches of
sizes 5, 0 and 3 to a freshly constructed store therefore yields exactly
9 records: the zero record first, then batch 1's five records in batch
order, then batch 3's three records last. -/
theorem append_batches_nine (b1 b2 b3 : List PhotonEmission)
    (h1 : b1.length = 5) (h2 : b2.length = 0) (h3 : b3.length = 3) :
    (((PhotonOutputter.new.append_photons b1).append_photons b2).append_photons
        b3).photons.length = 9
    ∧ (((PhotonOutputter.new.append_photons b1).append_photons b2).append_photons
        b3).photons.take 1 = [PhotonRecord.zero]
    ∧ ((((PhotonOutputter.new.append_photons b1).append_photons b2).append_photons
        b3).photons.drop 1).take 5 = b1.map (fun p => PhotonRecord.new p)
    ∧ (((PhotonOutputter.new.append_photons b1).append_photons b2).append_photons
        b3).photons.drop 6 = b3.map (fun p => PhotonRecord.new p) := by
  have hb2 : b2 = [] := List.length_eq_zero.mp h2
  subst hb2
  have hm1 : (b1.map (fun p => PhotonRecord.new p)).length = 5 := by
    rw [List.length_map, h1]
  have hphotons : (((PhotonOutputter.new.append_photons b1).append_photons
      []).append_photons b3).photons
      = PhotonRecord.zero :: (b1.map (fun p => PhotonRecord.new p)
          ++ b3.map (fun p => PhotonRecord.new p)) := by
    simp [PhotonOutputter.new, PhotonOutputter.append_photons]
  rw [hphotons]
  refine ⟨by simp [h1, h3], rfl, List.take_left' hm1, ?_⟩
  have hdrop : List.drop 6 (PhotonRecord.zero :: (b1.map (fun p => PhotonRecord.new p)
      ++ b3.map (fun p => PhotonRecord.new p)))
      = List.drop 5 (b1.map (fun p => PhotonRecord.new p)
          ++ b3.map (fun p => PhotonRecord.new p)) := rfl
  rw [hdrop]
  exact List.drop_left' hm1

/-- Witness for C2 at concrete batches. -/
theorem append_batches_nine_witness :
    ((List.replicate 5 (⟨(F64.val 1, F64.val 2, F64.val 3),
          (F64.val 1, F64.val 0, F64.val 0)⟩ : PhotonEmission)).length = 5
      ∧ ([] : List PhotonEmission).length = 0
      ∧ (List.replicate 3 (⟨(F64.val 1, F64.val 2, F64.val 3),
          (F64.val 1, F64.val 0, F64.val 0)⟩ : PhotonEmission)).length = 3)
    ∧ (((PhotonOutputter.new.append_photons
          (List.replicate 5 ⟨(F64.val 1, F64.val 2, F64.val 3),
            (F64.val 1, F64.val 0, F64.val 0)⟩)).append_photons
          []).append_photons
          (List.replicate 3 ⟨(F64.val 1, F64.val 2, F64.val 3),
            (F64.val 1, F64.val 0, F64.val 0)⟩)).photons.length = 9 := by
  refine ⟨⟨by simp, rfl, by simp⟩, ?_⟩
  exact (append_batches_nine
    (List.replicate 5 ⟨(F64.val 1, F64.val 2, F64.val 3),
      (F64.val 1, F64.val 0, F64.val 0)⟩)
    []
    (List.replicate 3 ⟨(F64.val 1, F64.val 2, F64.val 3),
      (F64.val 1, F64.val 0, F64.val 0)⟩)
    (by simp) rfl (by simp)).1

/-- Counterexample to C2 as stated: the freshly constructed store already
holds one (zero-filled) record — the initial extent is `(1, None)`, not
zero — so appending batches of sizes 5, 0 and 3 yields 9 records, not 8. -/
theorem event_store_initial_extent_not_zero :
    PhotonOutputter.new.photons.length = 1
    ∧ (((PhotonOutputter.new.append_photons
          (List.replicate 5 (⟨(F64.val 4, F64.val 5, F64.val 6),
            (F64.val 0, F64.val 1, F64.val 0)⟩ : PhotonEmission))).append_photons
          []).append_photons
          (List.replicate 3 ⟨(F64.val 4, F64.val 5, F64.val 6),
            (F64.val 0, F64.val 1, F64.val 0)⟩)).photons.length = 9
    ∧ (9 : ℕ) ≠ 8 := by
  refine ⟨rfl, ?_, by norm_num⟩
  simp [PhotonOutputter.new, PhotonOutputter.append_photons]

/-! ### Claim C7 -/

/-- C7 (confirmed): the initial-state writer is one-shot: on a store whose
`atoms` dataset does not exist yet, a first non-empty batch creates it, a
second non-empty invocation fails loudly with the descriptive error
`"Could not create dataset"` (it neither overwrites nor appends), and an
empty batch is a no-op that never creates the dataset. -/
theorem initial_writer_one_shot (st : PhotonOutputter)
    (b1 b2 : List InitialAtomPositionRecord)
    (h0 : st.atoms = none) (hb1 : b1 ≠ []) (hb2 : b2 ≠ []) :
    registerInitialAtoms st b1 = .ok { st with atoms := some b1 }
    ∧ (∀ st', registerInitialAtoms st b1 = .ok st' →
        registerInitialAtoms st' b2 = .error "Could not create dataset")
    ∧ registerInitialAtoms st [] = .ok st := by
  have l1 : 0 < b1.length := List.length_pos.mpr hb1
  have l2 : 0 < b2.length := List.length_pos.mpr hb2
  have e1 : registerInitialAtoms st b1 = .ok { st with atoms := some b1 } := by
    unfold registerInitialAtoms PhotonOutputter.write_initial_atom_positions
    rw [if_pos l1, h0]
  refine ⟨e1, ?_, by simp [registerInitialAtoms]⟩
  intro st' hst'
  rw [e1] at hst'
  injection hst' with hst'
  subst hst'
  unfold registerInitialAtoms PhotonOutputter.write_initial_atom_positions
  rw [if_pos l2]

/-- Witness for C7 at a concrete input. -/
theorem initial_writer_one_shot_witness :
    (PhotonOutputter.new.atoms = none
      ∧ ([(⟨F64.val 0, F64.val 0, F64.val 0, F64.val 0, F64.val 0, F64.val 0⟩ :
          InitialAtomPositionRecord)] : List InitialAtomPositionRecord) ≠ [])
    ∧ registerInitialAtoms PhotonOutputter.new
        [⟨F64.val 0, F64.val 0, F64.val 0, F64.val 0, F64.val 0, F64.val 0⟩]
      = .ok { PhotonOutputter.new with
          atoms := some [⟨F64.val 0, F64.val 0, F64.val 0, F64.val 0, F64.val 0, F64.val 0⟩] } := by
  refine ⟨⟨rfl, by simp⟩, ?_⟩
  exact (initial_writer_one_shot PhotonOutputter.new
    [⟨F64.val 0, F64.val 0, F64.val 0, F64.val 0, F64.val 0, F64.val 0⟩]
    [⟨F64.val 0, F64.val 0, F64.val 0, F64.val 0, F64.val 0, F64.val 0⟩]
    rfl (by simp) (by simp)).1

/-! ### Claim C8 -/

/-- C8 (confirmed): for every non-negative integer `n` and position `p`,
sampling `n` emission events at `p` produces exactly `n` events, each with
position exactly `p`; and whenever the unit-sphere sampler's stream delivers
unit vectors (the contract of `rand_distr::UnitSphere`), every produced
event's direction has squared norm exactly 1. -/
theorem samplePhotons_spec (p : Vector3) (n : ℕ) (dirs : ℕ → ℚ × ℚ × ℚ) :
    (samplePhotons p n dirs).length = n
    ∧ (∀ e ∈ samplePhotons p n dirs, e.position = p)
    ∧ ((∀ i, normSq (dirs i) = 1) →
        ∀ e ∈ samplePhotons p n dirs, dirNormSq e.direction = some 1) := by
  refine ⟨by simp [samplePhotons], ?_, ?_⟩
  · intro e he
    simp only [samplePhotons, List.mem_map, List.mem_range] at he
    obtain ⟨i, _, rfl⟩ := he
    rfl
  · intro hunit e he
    simp only [samplePhotons, List.mem_map, List.mem_range] at he
    obtain ⟨i, _, rfl⟩ := he
    have hi := hunit i
    unfold normSq at hi
    have : some ((dirs i).1 ^ 2 + (dirs i).2.1 ^ 2 + (dirs i).2.2 ^ 2)
        = some (1 : ℚ) := by rw [hi]
    exact this

/-- Witness for C8 at a concrete input. -/
theorem samplePhotons_spec_witness :
    (∀ i : ℕ, normSq ((fun _ => ((1 : ℚ), (0 : ℚ), (0 : ℚ))) i) = 1)
    ∧ (samplePhotons (F64.val 0, F64.val 0, F64.val 0) 3
        (fun _ => (1, 0, 0))).length = 3
    ∧ (∀ e ∈ samplePhotons (F64.val 0, F64.val 0, F64.val 0) 3
        (fun _ => (1, 0, 0)), dirNormSq e.direction = some 1) := by
  have hu : ∀ i : ℕ, normSq ((fun _ => ((1 : ℚ), (0 : ℚ), (0 : ℚ))) i) = 1 := by
    intro i; norm_num [normSq]
  exact ⟨hu, (samplePhotons_spec _ 3 _).1, (samplePhotons_spec _ 3 _).2.2 hu⟩

end ImagingDiffusion
